import Mathlib

/-!
# Verification of the PlotLib columnar dataset core

Shallow embedding of the columnar dataset container with lineage tracking
(`src/src/dataset.py`, class `DataSet`) and of its selection/transformation
engine (`src/src/processor.py`, classes `DataProcessLayer` and
`DataTransformer`), together with theorems settling the frozen claims about
the specification.

Modelling conventions:
* The numpy matrix `DataSet.data` (rows by columns) is stored column-major:
  `data` is the list of columns, each column a list of cell values.  All the
  operations modelled here move whole columns around, so cell values are an
  opaque payload (`Int`).  `np.ndarray.size == 0` corresponds to the total
  number of cells being zero, and `np.hstack` demands equal row counts.
* Python `None` entries inside `groups_idx` / `father_idx` / `initial_idx`
  are `Option.none`; a Python comparison `list_with_None == list_of_ints`
  is the equality of the `Option` list with the `.map some` image, which
  agrees elementwise with Python semantics (`None == n` is false).
* Exceptions are `Except String`, with the error strings naming the fault
  taxonomy of the specification (DimensionMismatch, SchemaAlignment,
  SelectionIncomplete, ChainSequencing, GroupAmbiguous, UnresolvedSelector);
  the Python code raises RuntimeError/ValueError with messages at the
  corresponding source lines.
* The selection grammar terms modelled are strings, single ints and lists of
  ints (`processor.py` lines 148-194).  The additional Python cases - a
  tuple treated like a list, and a nested non-integer tuple/list evaluated
  as a sub-selection (lines 196-198) - are not exercised by any claim and
  are left out of the `Term` grammar; every remaining branch is modelled
  exactly, including the lookahead consumption of the integer list that
  follows a "group..." string and the fall-through of a term that matches
  no grammar case (which leaves the loop-local buffer `Selected_data` from
  the previous iteration in place and re-merges it).
-/

set_option maxHeartbeats 1000000

/-- Mirrors `dataset.py` class `DataSet.__init__` fields.  `data` is the list
of columns of the numpy matrix. -/
structure DataSet where
  data : List (List Int)
  names : List String
  units : List String
  groups_idx : List (Option Int)
  group_local_idx : List Nat
  local_idx : List Nat
  father_idx : List (Option Nat)
  initial_idx : List (Option Nat)
  num_datagroups : Nat
  generation : Nat
  status : String
deriving DecidableEq, Repr

/-- A fresh `DataSet()`: `np.empty((0, 0))` matrix, empty metadata, status
`empty` (dataset.py lines 154-165). -/
def DataSet.empty : DataSet :=
  ⟨[], [], [], [], [], [], [], [], 0, 0, "empty"⟩

/-- `np.ndarray.size` of a column-major matrix: total number of cells. -/
def npSize (d : List (List Int)) : Nat :=
  (d.map List.length).sum

/-- Row count of a column-major matrix (length of its first column). -/
def nrows (d : List (List Int)) : Nat :=
  (d.headD []).length

/-- `DataSet.get_groupnumber` (dataset.py lines 233-237): number of distinct
values in `groups_idx` (`len(set(...))`), 0 for the empty list. -/
def DataSet.get_groupnumber (ds : DataSet) : Nat :=
  if ds.groups_idx = [] then 0 else ds.groups_idx.dedup.length

/-- The counter scan of `DataSet._get_group_local_idx` (dataset.py lines
241-249): `c` is the running per-key counter dictionary. -/
def groupLocalIdxAux : List (Option Int) → (Option Int → Nat) → List Nat
  | [], _ => []
  | g :: gs, c => c g :: groupLocalIdxAux gs (fun x => if x = g then c g + 1 else c x)

/-- `DataSet._get_group_local_idx` starting from an empty counter. -/
def groupLocalIdx (gs : List (Option Int)) : List Nat :=
  groupLocalIdxAux gs (fun _ => 0)

/-- One step of `DataSet._group_local_indices_unify_check` (dataset.py lines
252-261): scan pairs (group-local index, unit), keeping the map
`unit_by_local`; a pair whose local index is already mapped to a different
unit is the fault. -/
def unifyCheckAux : List (Nat × String) → (Nat → Option String) → Bool
  | [], _ => true
  | p :: rest, m =>
    match m p.1 with
    | some u =>
      decide (u = p.2) && unifyCheckAux rest (fun k => if k = p.1 then some p.2 else m k)
    | none => unifyCheckAux rest (fun k => if k = p.1 then some p.2 else m k)

/-- `DataSet._group_local_indices_unify_check` over the zipped
(group_local_idx, units) pairs, starting from the empty map. -/
def unifyCheck (xs : List (Nat × String)) : Bool :=
  unifyCheckAux xs (fun _ => none)

/-- `max(g for g in groups_idx if g is not None)` with the (unreachable when
some entry is set) empty-case defaulting to 0. -/
def maxSetGroup (gs : List (Option Int)) : Int :=
  match gs.filterMap id with
  | [] => 0
  | x :: xs => xs.foldl max x

/-- The `father_idx` / `initial_idx` defaulting of one iteration of the loop
in `DataSet.update_attributes` (dataset.py lines 218-222): entry `p.1`, if
unset, becomes the loop value `loc = p.2`. -/
def stepFA (fa : List (Option Nat)) (p : Nat × Nat) : List (Option Nat) :=
  if fa.getD p.1 (some 0) = none then fa.set p.1 (some p.2) else fa

/-- The `groups_idx` defaulting of one iteration of the loop in
`DataSet.update_attributes` (dataset.py lines 223-227): an unset entry
becomes 0 when every entry of the current list is unset, otherwise one past
the maximum of the currently set entries. -/
def stepG (gs : List (Option Int)) (i : Nat) : List (Option Int) :=
  if gs.getD i (some 0) = none then
    (if gs.all (fun g => g = none) then gs.set i (some 0)
     else gs.set i (some (maxSetGroup gs + 1)))
  else gs

/-- One iteration of the defaulting loop of `DataSet.update_attributes`
(dataset.py lines 218-227) on the whole record; the three lists are updated
independently within one iteration. -/
def defaultingStep (ds : DataSet) (p : Nat × Nat) : DataSet :=
  { ds with
    father_idx := stepFA ds.father_idx p,
    initial_idx := stepFA ds.initial_idx p,
    groups_idx := stepG ds.groups_idx p.1 }

/-- The full defaulting loop `for i, loc in enumerate(self.local_idx)` of
`DataSet.update_attributes`. -/
def defaultingPass (ds : DataSet) : DataSet :=
  ds.local_idx.enum.foldl defaultingStep ds

/-- `DataSet.update_attributes` (dataset.py lines 191-229): the chained
length check (DimensionMismatch on failure), then re-derivation of
`local_idx`, `num_datagroups` and `group_local_idx`, the unit unify check
(SchemaAlignment on failure), status `written`, and finally the defaulting
loop over unset lineage/group entries. -/
def DataSet.update_attributes (ds : DataSet) : Except String DataSet :=
  if ds.data.length = ds.names.length ∧ ds.names.length = ds.units.length ∧
      ds.units.length = ds.groups_idx.length ∧
      ds.groups_idx.length = ds.father_idx.length ∧
      ds.father_idx.length = ds.initial_idx.length then
    (if unifyCheck ((groupLocalIdx ds.groups_idx).zip ds.units) then
       Except.ok (defaultingPass
         { ds with
           local_idx := List.range ds.data.length,
           num_datagroups := ds.get_groupnumber,
           group_local_idx := groupLocalIdx ds.groups_idx,
           status := "written" })
     else Except.error "SchemaAlignment")
  else Except.error "DimensionMismatch"

/-- `DataSet.expandata` (dataset.py lines 175-188): when this dataset's
matrix has size zero the matrix becomes a copy of `other`'s, else the two
matrices are `np.hstack`ed (requiring equal row counts); the metadata lists
are concatenated and `update_attributes` re-validates. -/
def DataSet.expandata (self other : DataSet) : Except String DataSet :=
  match
    (if npSize self.data = 0 then Except.ok other.data
     else if (self.data.all fun c => c.length = nrows self.data) ∧
         (other.data.all fun c => c.length = nrows self.data) then
       Except.ok (self.data ++ other.data)
     else Except.error "DimensionMismatch") with
  | Except.error e => Except.error e
  | Except.ok d =>
    DataSet.update_attributes
      { self with
        data := d,
        names := self.names ++ other.names,
        units := self.units ++ other.units,
        groups_idx := self.groups_idx ++ other.groups_idx,
        father_idx := self.father_idx ++ other.father_idx,
        initial_idx := self.initial_idx ++ other.initial_idx }

/-- `DataProcessLayer.getdata` (processor.py lines 223-289), restricted to
the `varlist_idx` form (the `varname`/`varset` form first computes the index
list of the matching positions, see `matchIndices`).  An empty index list is
the UnresolvedSelector fault; the root heuristic at lines 275-279 picks the
extracted positions directly when `initial_idx` is empty or equals
`local_idx`, else propagates the parent's `initial_idx` values; out-of-range
positions are the Python IndexError. -/
def getdata (varlist_idx : List Nat) (father_dataset : DataSet) : Except String DataSet :=
  if varlist_idx = [] then Except.error "UnresolvedSelector"
  else
    match
      (if father_dataset.initial_idx = [] ∨
          father_dataset.initial_idx = father_dataset.local_idx.map some then
        Except.ok (varlist_idx.map some)
      else if varlist_idx.all (fun i => i < father_dataset.initial_idx.length) then
        Except.ok (varlist_idx.map fun i => father_dataset.initial_idx.getD i none)
      else Except.error "IndexError") with
    | Except.error e => Except.error e
    | Except.ok ini =>
      if varlist_idx.all (fun i =>
          i < father_dataset.data.length ∧ i < father_dataset.names.length ∧
          i < father_dataset.units.length ∧ i < father_dataset.groups_idx.length) then
        DataSet.update_attributes
          { DataSet.empty with
            data := varlist_idx.map (fun i => father_dataset.data.getD i []),
            names := varlist_idx.map (fun i => father_dataset.names.getD i ""),
            units := varlist_idx.map (fun i => father_dataset.units.getD i ""),
            groups_idx := varlist_idx.map (fun i => father_dataset.groups_idx.getD i none),
            father_idx := varlist_idx.map some,
            initial_idx := ini }
      else Except.error "IndexError"

/-- A selection grammar term (processor.py lines 148-194): a string, a single
int, or a list of ints. -/
inductive Term where
  | str : String → Term
  | int : Nat → Term
  | intList : List Nat → Term
deriving DecidableEq, Repr

/-- ASCII lower-casing of one character (the case folding relevant to the
"group" keyword test). -/
def charLower (c : Char) : Char :=
  if 65 ≤ c.toNat ∧ c.toNat ≤ 90 then Char.ofNat (c.toNat + 32) else c

/-- `re.match(r"group\w*", var, re.IGNORECASE)`: the string starts with
"group", case-insensitively. -/
def isGroupStr (s : String) : Bool :=
  decide ((s.data.map charLower).take 5 = "group".data)

/-- The group-selection index list (processor.py lines 160-162): for each
requested group id in order, all positions whose group id equals it. -/
def groupIndices (dfs : DataSet) (l : List Nat) : List Nat :=
  l.flatMap (fun g => (List.range dfs.groups_idx.length).filter
    (fun i => dfs.groups_idx.getD i none = some (g : Int)))

/-- `[i for i, x in enumerate(varset) if x == varname]` (processor.py line
263). -/
def matchIndices (varset : List String) (varname : String) : List Nat :=
  (List.range varset.length).filter (fun i => varset.getD i "" = varname)

/-- The `"all"` branch result (processor.py lines 150-152): a deep copy of
the selection source with `father_idx`/`initial_idx` reset to the identity
positions. -/
def allCopy (dfs : DataSet) : DataSet :=
  { dfs with
    father_idx := (List.range dfs.names.length).map some,
    initial_idx := (List.range dfs.names.length).map some }

/-- The per-term accumulation step (processor.py lines 203-206): extend the
accumulator by the buffer, or replace it with a (deep copy of the) buffer. -/
def mergeStep (extended : Bool) (acc buf : DataSet) : Except String DataSet :=
  if extended then acc.expandata buf else Except.ok buf

/-- The term loop of `DataProcessLayer.select` (processor.py lines 133-206).
`buf` is the loop-local `Selected_data` variable created once before the
loop, `acc` is `self.Selected_data`.  The `"all"` branch `continue`s past
the accumulation step; a "group..." string consumes the following integer
list (skip_next) or raises; a term matching no grammar case falls through
with the buffer unchanged, so the previous buffer is merged again. -/
def selectTerms (dfs : DataSet) (extended : Bool) :
    List Term → DataSet → DataSet → Except String DataSet
  | [], _, acc => Except.ok acc
  | Term.str s :: rest, buf, acc =>
    if s = "all" then selectTerms dfs extended rest (allCopy dfs) acc
    else if isGroupStr s then
      (match rest with
       | Term.intList l :: rest2 =>
         (match getdata (groupIndices dfs l) dfs with
          | Except.error e => Except.error e
          | Except.ok buf2 =>
            match mergeStep extended acc buf2 with
            | Except.error e => Except.error e
            | Except.ok acc2 => selectTerms dfs extended rest2 buf2 acc2)
       | _ => Except.error "GroupListExpected")
    else if s ∈ dfs.names then
      (match getdata (matchIndices dfs.names s) dfs with
       | Except.error e => Except.error e
       | Except.ok buf2 =>
         match mergeStep extended acc buf2 with
         | Except.error e => Except.error e
         | Except.ok acc2 => selectTerms dfs extended rest buf2 acc2)
    else if s ∈ dfs.units then
      (match getdata (matchIndices dfs.units s) dfs with
       | Except.error e => Except.error e
       | Except.ok buf2 =>
         match mergeStep extended acc buf2 with
         | Except.error e => Except.error e
         | Except.ok acc2 => selectTerms dfs extended rest buf2 acc2)
    else
      (match mergeStep extended acc buf with
       | Except.error e => Except.error e
       | Except.ok acc2 => selectTerms dfs extended rest buf acc2)
  | Term.int n :: rest, buf, acc =>
    (match getdata [n] dfs with
     | Except.error e => Except.error e
     | Except.ok buf2 =>
       match mergeStep extended acc buf2 with
       | Except.error e => Except.error e
       | Except.ok acc2 => selectTerms dfs extended rest buf2 acc2)
  | Term.intList l :: rest, buf, acc =>
    (match getdata l dfs with
     | Except.error e => Except.error e
     | Except.ok buf2 =>
       match mergeStep extended acc buf2 with
       | Except.error e => Except.error e
       | Except.ok acc2 => selectTerms dfs extended rest buf2 acc2)

/-- The chainable selection layer (processor.py lines 50-82), keeping the
fields the selection claims depend on. -/
structure DataProcessLayer where
  dataset : DataSet
  Selected_data : DataSet
  called_select : Bool
deriving DecidableEq, Repr

/-- `DataProcessLayer(dataset)`: fresh `Selected_data`, no select called. -/
def mkLayer (ds : DataSet) : DataProcessLayer :=
  ⟨ds, DataSet.empty, false⟩

/-- `DataProcessLayer.select` (processor.py lines 86-217): reset the
accumulator unless inheriting, run the term loop, then set `called_select`,
bump the accumulator's generation, and fail with the SelectionIncomplete
fault when the accumulator's status never became `written`. -/
def DataProcessLayer.select (l : DataProcessLayer) (args : List Term)
    (dataset_for_select : Option DataSet) (extended inherit : Bool) :
    Except String DataProcessLayer :=
  let sel0 := if inherit then l.Selected_data else DataSet.empty
  let dfs := dataset_for_select.getD l.dataset
  match selectTerms dfs extended args DataSet.empty sel0 with
  | Except.error e => Except.error e
  | Except.ok acc =>
    let acc2 := { acc with generation := acc.generation + 1 }
    if acc2.status = "written" then
      Except.ok { l with Selected_data := acc2, called_select := true }
    else Except.error "SelectionIncomplete"

/-- `DataProcessLayer.by` (processor.py lines 293-323; `by` is a Lean
keyword, hence `byCall`): when a select has been called, clear the flag and
re-select with the previous result as the selection source; otherwise the
ChainSequencing fault. -/
def DataProcessLayer.byCall (l : DataProcessLayer) (args : List Term)
    (extended inherit : Bool) : Except String DataProcessLayer :=
  if l.called_select then
    DataProcessLayer.select { l with called_select := false } args
      (some l.Selected_data) extended inherit
  else Except.error "ChainSequencing"

/-- The name resolution of `DataTransformer.__update_dataset_attributes`
(processor.py lines 464-472). -/
def normName (names_input : Option String) (names_extracted : List String) : String :=
  match names_input with
  | some n => n
  | none =>
    if names_extracted.length = 1 then names_extracted.headD ""
    else if names_extracted.dedup.length = 1 then "Norm_of_" ++ names_extracted.headD ""
    else "Norm_of_" ++ String.intercalate "_" names_extracted

/-- The unit resolution of `DataTransformer.__update_dataset_attributes`
(processor.py lines 476-481). -/
def normUnitOf (units_input : Option String) (units_extracted : List String) : String :=
  match units_input with
  | some u => u
  | none =>
    if units_extracted.dedup.length = 1 then units_extracted.headD ""
    else "unitless"

/-- The group-id resolution of `DataTransformer.__update_dataset_attributes`
(processor.py lines 484-494), also returning the updated
`self.num_datagroups` counter; the unresolvable case is the GroupAmbiguous
fault. -/
def normGroup (groups_idx_input : Option Int) (New_group : Bool)
    (groups_idx_extracted : List (Option Int)) (num_datagroups : Nat) :
    Except String (Option Int × Nat) :=
  match groups_idx_input with
  | some g => Except.ok (some g, num_datagroups)
  | none =>
    if New_group then Except.ok (some ((num_datagroups : Int) + 1), num_datagroups + 1)
    else if groups_idx_extracted.dedup.length = 1 then
      Except.ok (groups_idx_extracted.headD none, num_datagroups)
    else Except.error "GroupAmbiguous"

/-- `DataTransformer.__update_dataset_attributes` (processor.py lines
454-494): resolve name, unit and group id of the synthesized norm column. -/
def updateDatasetAttributes (names_extracted units_extracted : List String)
    (groups_idx_extracted : List (Option Int)) (names_input units_input : Option String)
    (groups_idx_input : Option Int) (New_group : Bool) (num_datagroups : Nat) :
    Except String (String × String × Option Int × Nat) :=
  match normGroup groups_idx_input New_group groups_idx_extracted num_datagroups with
  | Except.error e => Except.error e
  | Except.ok gn =>
    Except.ok (normName names_input names_extracted,
      normUnitOf units_input units_extracted, gn.1, gn.2)

/-- Invariant I2 as the specification words it: entry `i` of
`group_local_idx` is the number of columns with the same group id among the
first `i` columns. -/
def canonicalGlp (gs : List (Option Int)) : List Nat :=
  (List.range gs.length).map (fun i => (gs.take i).count (gs.getD i none))

/-- The dataset satisfies invariant I2 of the specification. -/
def glpOk (ds : DataSet) : Prop :=
  ds.group_local_idx = canonicalGlp ds.groups_idx

instance (ds : DataSet) : Decidable (glpOk ds) := by
  unfold glpOk
  infer_instance

/-- Modelled from the spec (section 4.1 defaulting rule for group ids), as a
left-to-right pass over the columns: an unset group id becomes 0 when every
group id of the dataset (processed and unprocessed alike) is unset,
otherwise one past the current maximum set group id. -/
def specGroupGo (processed : List (Option Int)) : List (Option Int) → List (Option Int)
  | [] => processed
  | g :: rest =>
    match g with
    | some v => specGroupGo (processed ++ [some v]) rest
    | none =>
      if (processed.all fun x => x = none) ∧ (rest.all fun x => x = none) then
        specGroupGo (processed ++ [some 0]) rest
      else
        specGroupGo (processed ++ [some (maxSetGroup (processed ++ none :: rest) + 1)]) rest

/-- The specification's group-id defaulting rule over a whole list. -/
def specGroupDefaults (gs : List (Option Int)) : List (Option Int) :=
  specGroupGo [] gs

deriving instance DecidableEq for Except

/-- Boolean success of an `Except` computation. -/
def isOkE {α : Type} (e : Except String α) : Bool :=
  match e with
  | Except.ok _ => true
  | Except.error _ => false

/-- The empty `DataSet` after one validated (empty) accumulation: only the
status differs from `DataSet.empty`. -/
def writtenEmpty : DataSet :=
  { DataSet.empty with status := "written" }

/-- A one-column example dataset (validated root). -/
def D1 : DataSet :=
  ⟨[[1]], ["a"], ["u"], [some 0], [0], [0], [some 0], [some 0], 1, 0, "written"⟩

/-- A six-column root dataset, each column its own group, all units equal. -/
def D6 : DataSet :=
  ⟨[[1], [2], [3], [4], [5], [6]], ["a", "b", "c", "d", "e", "f"],
    ["u", "u", "u", "u", "u", "u"],
    [some 0, some 1, some 2, some 3, some 4, some 5],
    [0, 0, 0, 0, 0, 0], [0, 1, 2, 3, 4, 5],
    [some 0, some 1, some 2, some 3, some 4, some 5],
    [some 0, some 1, some 2, some 3, some 4, some 5], 6, 0, "written"⟩


/-! ## Small list facts used by the characterizations -/

/-- A term that matches no case of the selection grammar of `select`
against the dataset `D`: not the literal "all", not a "group..." string,
and neither a column name nor a unit of `D`. -/
def unmatchedIn (s : String) (D : DataSet) : Prop :=
  s ≠ "all" ∧ isGroupStr s = false ∧ s ∉ D.names ∧ s ∉ D.units

/-- The two-column dataset with unset group ids used against claim C6. -/
def C6other : DataSet :=
  ⟨[[1], [2]], ["x", "y"], ["u", "u"], [none, none], [], [], [none, none],
    [none, none], 0, 0, "empty"⟩

/-- The dataset produced by extending an empty dataset with `C6other`. -/
def C6result : DataSet :=
  ⟨[[1], [2]], ["x", "y"], ["u", "u"], [some 0, some 1], [0, 1], [0, 1],
    [some 0, some 1], [some 0, some 1], 1, 0, "written"⟩

/-- A validated dataset whose group ids are 2 and 3 (e.g. obtained by
selecting groups [2, 3] out of a larger dataset). -/
def C9ds : DataSet :=
  ⟨[[1], [2]], ["a", "b"], ["u", "u"], [some 2, some 3], [0, 0], [0, 1],
    [some 0, some 1], [some 0, some 1], 2, 0, "written"⟩

/-- The dataset of the specification example: group 0 column 1 has unit "V",
group 1 column 1 has unit "A". -/
def C7ds : DataSet :=
  ⟨[[1], [2], [3], [4]], ["t", "v", "t2", "a2"], ["s", "V", "s", "A"],
    [some 0, some 0, some 1, some 1], [], [],
    [some 0, some 1, some 2, some 3], [some 0, some 1, some 2, some 3], 0, 0, "empty"⟩

/-- Appended columns with a mix of set and unset lineage/group entries. -/
def C10b : DataSet :=
  ⟨[[1], [2]], ["x", "y"], ["u", "u"], [none, some 5], [], [], [none, some 7],
    [some 4, none], 0, 0, "empty"⟩

/-- The result of extending an empty dataset with `C10b`. -/
def C10r : DataSet :=
  (DataSet.empty.expandata C10b).toOption.getD DataSet.empty

/-- The selection layer produced by the successful merge-mode selection of
column 0 out of `D1`. -/
def C3l : DataProcessLayer :=
  (DataProcessLayer.select (mkLayer D1) [Term.int 0] none true false).toOption.getD
    (mkLayer D1)

/-- The layer produced by the first selection of the C5 chain on `D6`. -/
def C5l1 : DataProcessLayer :=
  (DataProcessLayer.select (mkLayer D6) [Term.intList [2, 5]] none true false).toOption.getD
    (mkLayer D6)

/-- The layer produced by chaining `by(0)` after that selection. -/
def C5l2 : DataProcessLayer :=
  (DataProcessLayer.byCall C5l1 [Term.int 0] true false).toOption.getD (mkLayer D6)

theorem list_getD_mem_or {α : Type} (l : List α) (i : Nat) (d : α) :
    l.getD i d ∈ l ∨ l.getD i d = d := by
  induction l generalizing i with
  | nil => right; cases i <;> rfl
  | cons a l ih =>
    cases i with
    | zero => left; rw [List.getD_cons_zero]; exact List.mem_cons_self a l
    | succ n =>
      rw [List.getD_cons_succ]
      rcases ih n with h | h
      · left; exact List.mem_cons_of_mem a h
      · right; exact h

theorem list_getD_congr {α : Type} (l : List α) (d d' : α) (i : Nat) (h : i < l.length) :
    l.getD i d = l.getD i d' := by
  induction l generalizing i with
  | nil => simp at h
  | cons a l ih =>
    cases i with
    | zero => rfl
    | succ n => simp only [List.getD_cons_succ]; exact ih n (by simpa using h)

theorem list_getD_set_ne {α : Type} (l : List α) (i j : Nat) (a d : α) (h : i ≠ j) :
    (l.set i a).getD j d = l.getD j d := by
  induction l generalizing i j with
  | nil => cases i <;> rfl
  | cons b l ih =>
    cases i with
    | zero =>
      cases j with
      | zero => exact absurd rfl h
      | succ m => rfl
    | succ n =>
      cases j with
      | zero => rfl
      | succ m => simp only [List.set_cons_succ, List.getD_cons_succ]; exact ih n m (by omega)

theorem list_getD_set_eq {α : Type} (l : List α) (i : Nat) (a d : α) (h : i < l.length) :
    (l.set i a).getD i d = a := by
  induction l generalizing i with
  | nil => simp at h
  | cons b l ih =>
    cases i with
    | zero => rfl
    | succ n => simp only [List.set_cons_succ, List.getD_cons_succ]; exact ih n (by simpa using h)

theorem list_set_append_len {α : Type} (l1 l2 : List α) (x a : α) :
    (l1 ++ x :: l2).set l1.length a = l1 ++ a :: l2 := by
  induction l1 with
  | nil => rfl
  | cons b l1 ih => simp only [List.cons_append, List.length_cons, List.set_cons_succ, ih]

theorem list_getD_append_len {α : Type} (l1 l2 : List α) (x d : α) :
    (l1 ++ x :: l2).getD l1.length d = x := by
  induction l1 with
  | nil => rfl
  | cons b l1 ih => simpa using ih

theorem list_zip_self {α : Type} (l : List α) : l.zip l = l.map (fun a => (a, a)) := by
  induction l with
  | nil => rfl
  | cons a l ih => simp [List.zip_cons_cons, ih]

theorem enum_range (m : Nat) : (List.range m).enum = (List.range m).map (fun i => (i, i)) := by
  rw [List.enum_eq_zip_range, List.length_range, list_zip_self]

theorem two_le_length_of_mem_ne {α : Type} {l : List α} {a b : α}
    (ha : a ∈ l) (hb : b ∈ l) (h : a ≠ b) : 2 ≤ l.length := by
  match l with
  | [] => cases ha
  | [x] =>
    rw [List.mem_singleton] at ha hb
    exact absurd (ha.trans hb.symm) h
  | x :: y :: t => simp only [List.length_cons]; omega

theorem dedup_two_le {α : Type} [DecidableEq α] {l : List α} {a b : α}
    (ha : a ∈ l) (hb : b ∈ l) (h : a ≠ b) : 2 ≤ l.dedup.length :=
  two_le_length_of_mem_ne (List.mem_dedup.2 ha) (List.mem_dedup.2 hb) h

theorem dedup_of_forall_eq {α : Type} [DecidableEq α] (l : List α) (a : α)
    (hne : l ≠ []) (h : ∀ x ∈ l, x = a) : l.dedup = [a] := by
  induction l with
  | nil => exact absurd rfl hne
  | cons b l ih =>
    have hb : b = a := h b (List.mem_cons_self b l)
    subst hb
    cases l with
    | nil => simp
    | cons c t =>
      have hc : c = b := h c (by simp)
      rw [List.dedup_cons_of_mem (by simp [hc]), ih (by simp)]
      intro x hx; exact h x (List.mem_cons_of_mem b hx)

/-! ## Components of the defaulting pass -/

theorem foldl_defaultingStep_data (ps : List (Nat × Nat)) :
    ∀ ds : DataSet, (ps.foldl defaultingStep ds).data = ds.data := by
  induction ps with
  | nil => intro ds; rfl
  | cons p ps ih => intro ds; rw [List.foldl_cons, ih]; rfl

theorem foldl_defaultingStep_names (ps : List (Nat × Nat)) :
    ∀ ds : DataSet, (ps.foldl defaultingStep ds).names = ds.names := by
  induction ps with
  | nil => intro ds; rfl
  | cons p ps ih => intro ds; rw [List.foldl_cons, ih]; rfl

theorem foldl_defaultingStep_units (ps : List (Nat × Nat)) :
    ∀ ds : DataSet, (ps.foldl defaultingStep ds).units = ds.units := by
  induction ps with
  | nil => intro ds; rfl
  | cons p ps ih => intro ds; rw [List.foldl_cons, ih]; rfl

theorem foldl_defaultingStep_glp (ps : List (Nat × Nat)) :
    ∀ ds : DataSet, (ps.foldl defaultingStep ds).group_local_idx = ds.group_local_idx := by
  induction ps with
  | nil => intro ds; rfl
  | cons p ps ih => intro ds; rw [List.foldl_cons, ih]; rfl

theorem foldl_defaultingStep_local (ps : List (Nat × Nat)) :
    ∀ ds : DataSet, (ps.foldl defaultingStep ds).local_idx = ds.local_idx := by
  induction ps with
  | nil => intro ds; rfl
  | cons p ps ih => intro ds; rw [List.foldl_cons, ih]; rfl

theorem foldl_defaultingStep_num (ps : List (Nat × Nat)) :
    ∀ ds : DataSet, (ps.foldl defaultingStep ds).num_datagroups = ds.num_datagroups := by
  induction ps with
  | nil => intro ds; rfl
  | cons p ps ih => intro ds; rw [List.foldl_cons, ih]; rfl

theorem foldl_defaultingStep_generation (ps : List (Nat × Nat)) :
    ∀ ds : DataSet, (ps.foldl defaultingStep ds).generation = ds.generation := by
  induction ps with
  | nil => intro ds; rfl
  | cons p ps ih => intro ds; rw [List.foldl_cons, ih]; rfl

theorem foldl_defaultingStep_status (ps : List (Nat × Nat)) :
    ∀ ds : DataSet, (ps.foldl defaultingStep ds).status = ds.status := by
  induction ps with
  | nil => intro ds; rfl
  | cons p ps ih => intro ds; rw [List.foldl_cons, ih]; rfl

theorem foldl_defaultingStep_father (ps : List (Nat × Nat)) :
    ∀ ds : DataSet, (ps.foldl defaultingStep ds).father_idx = ps.foldl stepFA ds.father_idx := by
  induction ps with
  | nil => intro ds; rfl
  | cons p ps ih => intro ds; rw [List.foldl_cons, List.foldl_cons, ih]; rfl

theorem foldl_defaultingStep_initial (ps : List (Nat × Nat)) :
    ∀ ds : DataSet, (ps.foldl defaultingStep ds).initial_idx = ps.foldl stepFA ds.initial_idx := by
  induction ps with
  | nil => intro ds; rfl
  | cons p ps ih => intro ds; rw [List.foldl_cons, List.foldl_cons, ih]; rfl

theorem foldl_defaultingStep_groups (ps : List (Nat × Nat)) :
    ∀ ds : DataSet,
      (ps.foldl defaultingStep ds).groups_idx =
        ps.foldl (fun g p => stepG g p.1) ds.groups_idx := by
  induction ps with
  | nil => intro ds; rfl
  | cons p ps ih => intro ds; rw [List.foldl_cons, List.foldl_cons, ih]; rfl

/-! ## The defaulting steps leave fully set lists alone -/

theorem stepFA_of_forall_some {fa : List (Option Nat)} (h : ∀ x ∈ fa, x ≠ none)
    (p : Nat × Nat) : stepFA fa p = fa := by
  have hne : fa.getD p.1 (some 0) ≠ none := by
    rcases list_getD_mem_or fa p.1 (some 0) with hm | hd
    · exact h _ hm
    · rw [hd]; simp
  unfold stepFA
  rw [if_neg hne]

theorem foldl_stepFA_of_forall_some {fa : List (Option Nat)} (h : ∀ x ∈ fa, x ≠ none)
    (ps : List (Nat × Nat)) : ps.foldl stepFA fa = fa := by
  induction ps with
  | nil => rfl
  | cons p ps ih => rw [List.foldl_cons, stepFA_of_forall_some h]; exact ih

theorem stepG_of_forall_some {gs : List (Option Int)} (h : ∀ x ∈ gs, x ≠ none)
    (i : Nat) : stepG gs i = gs := by
  have hne : gs.getD i (some 0) ≠ none := by
    rcases list_getD_mem_or gs i (some 0) with hm | hd
    · exact h _ hm
    · rw [hd]; simp
  unfold stepG
  rw [if_neg hne]

theorem foldl_stepG_of_forall_some {gs : List (Option Int)} (h : ∀ x ∈ gs, x ≠ none)
    (ps : List (Nat × Nat)) : ps.foldl (fun g p => stepG g p.1) gs = gs := by
  induction ps with
  | nil => rfl
  | cons p ps ih => rw [List.foldl_cons, stepG_of_forall_some h]; exact ih

theorem defaultingPass_initial_of_forall_some (ds : DataSet)
    (h : ∀ x ∈ ds.initial_idx, x ≠ none) :
    (defaultingPass ds).initial_idx = ds.initial_idx := by
  unfold defaultingPass
  rw [foldl_defaultingStep_initial, foldl_stepFA_of_forall_some h]

theorem defaultingPass_father_of_forall_some (ds : DataSet)
    (h : ∀ x ∈ ds.father_idx, x ≠ none) :
    (defaultingPass ds).father_idx = ds.father_idx := by
  unfold defaultingPass
  rw [foldl_defaultingStep_father, foldl_stepFA_of_forall_some h]

theorem defaultingPass_groups_of_forall_some (ds : DataSet)
    (h : ∀ x ∈ ds.groups_idx, x ≠ none) :
    (defaultingPass ds).groups_idx = ds.groups_idx := by
  unfold defaultingPass
  rw [foldl_defaultingStep_groups, foldl_stepG_of_forall_some h]

/-! ## Inversion of the validators -/

theorem update_attributes_ok {ds r : DataSet} (h : ds.update_attributes = Except.ok r) :
    (ds.data.length = ds.names.length ∧ ds.names.length = ds.units.length ∧
      ds.units.length = ds.groups_idx.length ∧
      ds.groups_idx.length = ds.father_idx.length ∧
      ds.father_idx.length = ds.initial_idx.length) ∧
    unifyCheck ((groupLocalIdx ds.groups_idx).zip ds.units) = true ∧
    r = defaultingPass
      { ds with
        local_idx := List.range ds.data.length,
        num_datagroups := ds.get_groupnumber,
        group_local_idx := groupLocalIdx ds.groups_idx,
        status := "written" } := by
  unfold DataSet.update_attributes at h
  split at h
  · split at h
    · refine ⟨by assumption, by assumption, ?_⟩
      exact (Except.ok.inj h).symm
    · exact absurd h (by simp)
  · exact absurd h (by simp)

theorem expandata_ok {a b r : DataSet} (h : a.expandata b = Except.ok r) :
    ∃ d : List (List Int),
      DataSet.update_attributes
        { a with
          data := d,
          names := a.names ++ b.names,
          units := a.units ++ b.units,
          groups_idx := a.groups_idx ++ b.groups_idx,
          father_idx := a.father_idx ++ b.father_idx,
          initial_idx := a.initial_idx ++ b.initial_idx } = Except.ok r := by
  unfold DataSet.expandata at h
  split at h
  · exact absurd h (by simp)
  · exact ⟨_, h⟩

/-! ## Update and expandata ignore the incoming status field -/

theorem update_attributes_status (ds : DataSet) (s : String) :
    DataSet.update_attributes { ds with status := s } = ds.update_attributes := rfl

theorem expandata_writtenEmpty (b : DataSet) :
    writtenEmpty.expandata b = DataSet.empty.expandata b := rfl

/-- C1: calling `select('all')` alone on a fresh layer raises, because the
"all" branch `continue`s past the accumulation step (processor.py line 153),
leaving `self.Selected_data` the fresh empty dataset, whose status is not
`written` when the final check at line 213 runs. -/
theorem C1_code_bug_eval :
    DataProcessLayer.select (mkLayer D1) [Term.str "all"] none true false =
      Except.error "SelectionIncomplete" := rfl

/-- C2: `by(...)` before any `select` does raise the ChainSequencing fault,
but two consecutive `by(...)` calls both succeed, because `select` sets
`called_select = True` again (processor.py line 210) before returning from
the `by`-delegated call; the second and even a third `by` go through. -/
theorem C2_code_bug_eval :
    DataProcessLayer.byCall (mkLayer D1) [Term.int 0] true false =
      Except.error "ChainSequencing" ∧
    isOkE ((DataProcessLayer.select (mkLayer D1) [Term.int 0] none true false).bind
      (fun l1 => (DataProcessLayer.byCall l1 [Term.int 0] true false).bind
        (fun l2 => DataProcessLayer.byCall l2 [Term.int 0] true false))) = true :=
  ⟨rfl, rfl⟩

/-- C3 counterexample: in merge mode, inserting the no-match term "zzz"
after the matching term `0` duplicates column 0 (the stale per-term buffer
is merged again, processor.py lines 203-206), so the result is not the
selection with the term removed. -/
theorem C3_counterexample :
    (DataProcessLayer.select (mkLayer D1) [Term.int 0, Term.str "zzz"] none true false).map
        (fun l => l.Selected_data.names) = Except.ok ["a", "a"] ∧
    (DataProcessLayer.select (mkLayer D1) [Term.int 0] none true false).map
        (fun l => l.Selected_data.names) = Except.ok ["a"] := by
  refine ⟨by decide, rfl⟩

/-- C4 counterexample: a merge-mode (default) `select` whose single term
matches nothing succeeds with a zero-column result whose empty accumulation
was validated to status `written` - it does not fail. -/
theorem C4_counterexample :
    (DataProcessLayer.select (mkLayer D1) [Term.str "zzz"] none true false).map
        (fun l => (l.Selected_data.data.length, l.Selected_data.status)) =
      Except.ok (0, "written") := by decide

/-- C6 counterexample: extending with two columns whose group ids are unset
yields `group_local_idx = [0, 1]` (derived before the defaulting pass, when
both columns still shared the key `None`) but `groups_idx = [0, 1]` after
defaulting, so column 1 has no same-group predecessor yet carries
group-local position 1: invariant I2 does not hold after this mutation. -/
theorem C6_counterexample :
    DataSet.empty.expandata C6other = Except.ok C6result ∧ ¬ glpOk C6result :=
  ⟨rfl, by decide⟩

/-- C9 counterexample: with `new_group` set, the norm column's group id is
`num_datagroups + 1` (processor.py line 487) - here 3, which is already the
group id of an existing column, so it is not "the next unused group id". -/
theorem C9_counterexample :
    normGroup none true C9ds.groups_idx C9ds.num_datagroups = Except.ok (some 3, 3) ∧
    some 3 ∈ C9ds.groups_idx ∧ C9ds.num_datagroups = C9ds.get_groupnumber := by
  refine ⟨rfl, by decide, by decide⟩

/-! ## The counter scan computes the same-group predecessor count -/

theorem groupLocalIdxAux_eq_map (gs : List (Option Int)) :
    ∀ c : Option Int → Nat,
      groupLocalIdxAux gs c =
        (List.range gs.length).map
          (fun i => c (gs.getD i none) + (gs.take i).count (gs.getD i none)) := by
  induction gs with
  | nil => intro c; rfl
  | cons g gs ih =>
    intro c
    simp only [groupLocalIdxAux, List.length_cons, List.range_succ_eq_map,
      List.map_cons, List.map_map]
    rw [ih]
    congr 1
    apply List.map_congr_left
    intro i _
    simp only [Function.comp_apply, List.getD_cons_succ, List.take_succ_cons]
    rw [List.count_cons]
    by_cases hx : gs[i]?.getD none = g
    · simp only [List.getD]
      simp [hx]
      omega
    · simp only [List.getD]
      simp [hx, Ne.symm hx]

theorem groupLocalIdx_eq_canonical (gs : List (Option Int)) :
    groupLocalIdx gs = canonicalGlp gs := by
  unfold groupLocalIdx canonicalGlp
  rw [groupLocalIdxAux_eq_map]
  simp

theorem groupLocalIdx_length (gs : List (Option Int)) :
    (groupLocalIdx gs).length = gs.length := by
  rw [groupLocalIdx_eq_canonical]
  unfold canonicalGlp
  simp

/-- C6, amended: after a mutation in which every group id was already set
when `update_attributes` validated, the derived `group_local_idx` is the
count of same-group predecessors (invariant I2); and a dataset of two
groups of 3 columns each derives `group_local_idx = [0,1,2,0,1,2]` whatever
the two distinct group id values are.  (With unset group ids present, the
post-derivation defaulting can break I2, see the counterexample.) -/
theorem C6_amended :
    (∀ ds r : DataSet, ds.update_attributes = Except.ok r →
        (∀ g ∈ ds.groups_idx, g ≠ none) → glpOk r) ∧
    (∀ g1 g2 : Int, g1 ≠ g2 →
        groupLocalIdx [some g1, some g1, some g1, some g2, some g2, some g2] =
          [0, 1, 2, 0, 1, 2]) := by
  constructor
  · intro ds r h hsome
    obtain ⟨hdims, hchk, hr⟩ := update_attributes_ok h
    subst hr
    unfold glpOk
    rw [show ∀ Y : DataSet, (defaultingPass Y).group_local_idx = Y.group_local_idx from
      fun Y => foldl_defaultingStep_glp _ _]
    rw [defaultingPass_groups_of_forall_some _ (by simpa using hsome)]
    exact (groupLocalIdx_eq_canonical ds.groups_idx)
  · intro g1 g2 hne
    simp [groupLocalIdx, groupLocalIdxAux, Option.some.injEq, hne, Ne.symm hne]

/-- Witness for C6_amended at concrete inputs. -/
theorem C6_witness :
    D1.update_attributes = Except.ok D1 ∧ glpOk D1 ∧
    groupLocalIdx [some 0, some 0, some 0, some 1, some 1, some 1] = [0, 1, 2, 0, 1, 2] :=
  ⟨by decide, C6_amended.1 D1 D1 (by decide) (by decide), C6_amended.2 0 1 (by decide)⟩

/-! ## The unify check accepts exactly pairwise-consistent assignments -/

theorem unify_map_update_iff (x : Nat × String) (rest : List (Nat × String))
    (m : Nat → Option String) (hm : m x.1 = none ∨ m x.1 = some x.2) :
    ((∀ p ∈ rest, ∀ w, (if p.1 = x.1 then some x.2 else m p.1) = some w → w = p.2) ↔
      ((∀ b ∈ rest, x.1 = b.1 → x.2 = b.2) ∧
       (∀ p ∈ rest, ∀ w, m p.1 = some w → w = p.2))) := by
  constructor
  · intro hC
    constructor
    · intro b hb h1
      exact hC b hb x.2 (by rw [if_pos h1.symm])
    · intro p hp w hw
      by_cases hpe : p.1 = x.1
      · have hx2 : x.2 = p.2 := hC p hp x.2 (by rw [if_pos hpe])
        rcases hm with hm | hm
        · rw [hpe] at hw; rw [hm] at hw; cases hw
        · rw [hpe] at hw; rw [hm] at hw
          cases hw
          exact hx2
      · exact hC p hp w (by rw [if_neg hpe]; exact hw)
  · rintro ⟨hpw, hC⟩ p hp w hw
    by_cases hpe : p.1 = x.1
    · rw [if_pos hpe] at hw
      cases hw
      exact hpw p hp hpe.symm
    · rw [if_neg hpe] at hw
      exact hC p hp w hw

theorem unifyCheckAux_true_iff (xs : List (Nat × String)) :
    ∀ m : Nat → Option String,
      (unifyCheckAux xs m = true ↔
        (List.Pairwise (fun a b : Nat × String => a.1 = b.1 → a.2 = b.2) xs ∧
         ∀ p ∈ xs, ∀ u, m p.1 = some u → u = p.2)) := by
  induction xs with
  | nil => intro m; simp [unifyCheckAux]
  | cons x rest ih =>
    intro m
    rw [List.pairwise_cons]
    cases hm : m x.1 with
    | some u =>
      simp only [unifyCheckAux, hm, Bool.and_eq_true, decide_eq_true_eq]
      rw [ih]
      constructor
      · rintro ⟨hu, hpw, hC'⟩
        subst hu
        obtain ⟨hhead, hC⟩ := (unify_map_update_iff x rest m (Or.inr hm)).mp hC'
        refine ⟨⟨hhead, hpw⟩, ?_⟩
        intro p hp w hw
        rcases List.mem_cons.mp hp with hpx | hpr
        · subst hpx; rw [hm] at hw; cases hw; rfl
        · exact hC p hpr w hw
      · rintro ⟨⟨hhead, hpw⟩, hC⟩
        have hu : u = x.2 := hC x (List.mem_cons_self x rest) u hm
        subst hu
        refine ⟨rfl, hpw, ?_⟩
        exact (unify_map_update_iff x rest m (Or.inr hm)).mpr
          ⟨hhead, fun p hp w hw => hC p (List.mem_cons_of_mem x hp) w hw⟩
    | none =>
      simp only [unifyCheckAux, hm]
      rw [ih]
      rw [unify_map_update_iff x rest m (Or.inl hm)]
      constructor
      · rintro ⟨hpw, hhead, hC⟩
        refine ⟨⟨hhead, hpw⟩, ?_⟩
        intro p hp w hw
        rcases List.mem_cons.mp hp with hpx | hpr
        · subst hpx; rw [hm] at hw; cases hw
        · exact hC p hpr w hw
      · rintro ⟨⟨hhead, hpw⟩, hC⟩
        exact ⟨hpw, hhead, fun p hp w hw => hC p (List.mem_cons_of_mem x hp) w hw⟩

theorem unifyCheck_true_iff (xs : List (Nat × String)) :
    unifyCheck xs = true ↔
      List.Pairwise (fun a b : Nat × String => a.1 = b.1 → a.2 = b.2) xs := by
  rw [unifyCheck, unifyCheckAux_true_iff]
  simp

/-- C7: schema alignment is enforced: whenever the dimension check passes
but two columns end up with the same derived group-local position and
different units, `update_attributes` fails with the SchemaAlignment fault. -/
theorem C7_schema_alignment (ds : DataSet)
    (hlen : ds.data.length = ds.names.length ∧ ds.names.length = ds.units.length ∧
      ds.units.length = ds.groups_idx.length ∧
      ds.groups_idx.length = ds.father_idx.length ∧
      ds.father_idx.length = ds.initial_idx.length)
    (i j : Nat) (hi : i < ds.units.length) (hj : j < ds.units.length) (hij : i ≠ j)
    (hglp : (groupLocalIdx ds.groups_idx).getD i 0 = (groupLocalIdx ds.groups_idx).getD j 0)
    (hu : ds.units.getD i "" ≠ ds.units.getD j "") :
    ds.update_attributes = Except.error "SchemaAlignment" := by
  have hgu : ds.units.length = ds.groups_idx.length := hlen.2.2.1
  have hgl : (groupLocalIdx ds.groups_idx).length = ds.units.length := by
    rw [groupLocalIdx_length]; omega
  have hzlen : ((groupLocalIdx ds.groups_idx).zip ds.units).length = ds.units.length := by
    rw [List.length_zip, hgl, Nat.min_self]
  have hi' : i < (groupLocalIdx ds.groups_idx).length := by omega
  have hj' : j < (groupLocalIdx ds.groups_idx).length := by omega
  rw [List.getD_eq_getElem _ 0 hi', List.getD_eq_getElem _ 0 hj'] at hglp
  rw [List.getD_eq_getElem _ "" hi, List.getD_eq_getElem _ "" hj] at hu
  have hfalse : ¬ (unifyCheck ((groupLocalIdx ds.groups_idx).zip ds.units) = true) := by
    rw [unifyCheck_true_iff]
    intro hpw
    rw [List.pairwise_iff_getElem] at hpw
    rcases Nat.lt_or_ge i j with hlt | hge
    · have hr := hpw i j (by omega) (by omega) hlt
      rw [List.getElem_zip, List.getElem_zip] at hr
      exact hu (hr hglp)
    · have hlt : j < i := by omega
      have hr := hpw j i (by omega) (by omega) hlt
      rw [List.getElem_zip, List.getElem_zip] at hr
      exact hu (hr hglp.symm).symm
  unfold DataSet.update_attributes
  rw [if_pos hlen, if_neg hfalse]

/-- Witness for C7 at the specification's concrete example. -/
theorem C7_witness : C7ds.update_attributes = Except.error "SchemaAlignment" :=
  C7_schema_alignment C7ds (by decide) 1 3 (by decide) (by decide) (by decide)
    (by decide) (by decide)

/-- C8: the norm output column's name and unit precedence, plus the
specification's concrete example (two differently-named, differently-united
inputs produce the concatenated "Norm_of_" name and the literal unit
"unitless"). -/
theorem C8_norm_naming :
    (∀ n1 : String, normName none [n1] = n1) ∧
    (∀ (ne : List String) (n0 : String), 2 ≤ ne.length → (∀ x ∈ ne, x = n0) →
      normName none ne = "Norm_of_" ++ n0) ∧
    (∀ (ne : List String) (a b : String), a ∈ ne → b ∈ ne → a ≠ b →
      normName none ne = "Norm_of_" ++ String.intercalate "_" ne) ∧
    (∀ (ue : List String) (u : String), normUnitOf (some u) ue = u) ∧
    (∀ (ue : List String) (u0 : String), ue ≠ [] → (∀ x ∈ ue, x = u0) →
      normUnitOf none ue = u0) ∧
    (∀ (ue : List String) (a b : String), a ∈ ue → b ∈ ue → a ≠ b →
      normUnitOf none ue = "unitless") ∧
    updateDatasetAttributes ["Zs\x27(ohm)", "Zs\x27\x27(ohm)"] ["ohmA", "ohmB"]
        [some 0, some 0] none none none false 1 =
      Except.ok ("Norm_of_Zs\x27(ohm)_Zs\x27\x27(ohm)", "unitless", some 0, 1) := by
  refine ⟨?_, ?_, ?_, ?_, ?_, ?_, by decide⟩
  · intro n1; rfl
  · intro ne n0 hlen hall
    have hne : ne ≠ [] := by intro h; rw [h] at hlen; simp at hlen
    have hd : ne.dedup = [n0] := dedup_of_forall_eq ne n0 hne hall
    have hhead : ne.headD "" = n0 := by
      cases ne with
      | nil => exact absurd rfl hne
      | cons x t => exact hall x (List.mem_cons_self x t)
    unfold normName
    rw [if_neg (by omega), if_pos (by rw [hd]; rfl), hhead]
  · intro ne a b ha hb hab
    have h2 : 2 ≤ ne.length := two_le_length_of_mem_ne ha hb hab
    have h2d : 2 ≤ ne.dedup.length := dedup_two_le ha hb hab
    unfold normName
    rw [if_neg (by omega), if_neg (by omega)]
  · intro ue u; rfl
  · intro ue u0 hne hall
    have hd : ue.dedup = [u0] := dedup_of_forall_eq ue u0 hne hall
    have hhead : ue.headD "" = u0 := by
      cases ue with
      | nil => exact absurd rfl hne
      | cons x t => exact hall x (List.mem_cons_self x t)
    unfold normUnitOf
    rw [if_pos (by rw [hd]; rfl), hhead]
  · intro ue a b ha hb hab
    have h2d : 2 ≤ ue.dedup.length := dedup_two_le ha hb hab
    unfold normUnitOf
    rw [if_neg (by omega)]

/-- Witness for the hypothesis-bearing conjuncts of C8 at concrete inputs. -/
theorem C8_witness :
    normName none ["a"] = "a" ∧
    normName none ["a", "a"] = "Norm_of_a" ∧
    normName none ["a", "b"] = "Norm_of_a_b" ∧
    normUnitOf none ["u", "u"] = "u" ∧
    normUnitOf none ["u", "v"] = "unitless" :=
  ⟨C8_norm_naming.1 "a",
   C8_norm_naming.2.1 ["a", "a"] "a" (by decide) (by decide),
   by
     have h := C8_norm_naming.2.2.1 ["a", "b"] "a" "b" (by decide) (by decide) (by decide)
     simpa using h,
   C8_norm_naming.2.2.2.2.1 ["u", "u"] "u" (by decide) (by decide),
   C8_norm_naming.2.2.2.2.2.1 ["u", "v"] "u" "v" (by decide) (by decide) (by decide)⟩

/-- C9, amended: the norm output group id precedence is `result_group` if
given; else with `new_group` the id `num_datagroups + 1` (one past the count
of distinct group ids - not necessarily an unused id), incrementing the
counter; else the common group id of the inputs; else the GroupAmbiguous
fault. -/
theorem C9_amended :
    (∀ (ge : List (Option Int)) (ng : Bool) (num : Nat) (g : Int),
      normGroup (some g) ng ge num = Except.ok (some g, num)) ∧
    (∀ (ge : List (Option Int)) (num : Nat),
      normGroup none true ge num = Except.ok (some ((num : Int) + 1), num + 1)) ∧
    (∀ (ge : List (Option Int)) (g0 : Option Int) (num : Nat), ge ≠ [] →
      (∀ x ∈ ge, x = g0) → normGroup none false ge num = Except.ok (g0, num)) ∧
    (∀ (ge : List (Option Int)) (a b : Option Int) (num : Nat), a ∈ ge → b ∈ ge →
      a ≠ b → normGroup none false ge num = Except.error "GroupAmbiguous") := by
  refine ⟨fun ge ng num g => rfl, fun ge num => rfl, ?_, ?_⟩
  · intro ge g0 num hne hall
    have hd : ge.dedup = [g0] := dedup_of_forall_eq ge g0 hne hall
    have hhead : ge.headD none = g0 := by
      cases ge with
      | nil => exact absurd rfl hne
      | cons x t => exact hall x (List.mem_cons_self x t)
    unfold normGroup
    rw [if_neg (by simp), if_pos (by rw [hd]; rfl), hhead]
  · intro ge a b num ha hb hab
    have h2d : 2 ≤ ge.dedup.length := dedup_two_le ha hb hab
    unfold normGroup
    rw [if_neg (by simp), if_neg (by omega)]

/-- Witness for the hypothesis-bearing conjuncts of C9_amended. -/
theorem C9_witness :
    normGroup none false [some 4, some 4] 2 = Except.ok (some 4, 2) ∧
    normGroup none false [some 0, some 1] 2 = Except.error "GroupAmbiguous" :=
  ⟨C9_amended.2.2.1 [some 4, some 4] (some 4) 2 (by decide) (by decide),
   C9_amended.2.2.2 [some 0, some 1] (some 0) (some 1) 2 (by decide) (by decide)
     (by decide)⟩

/-! ## Pointwise characterization of the defaulting loop -/

theorem length_foldl_stepFA (ps : List (Nat × Nat)) :
    ∀ fa : List (Option Nat), (ps.foldl stepFA fa).length = fa.length := by
  induction ps with
  | nil => intro fa; rfl
  | cons p ps ih =>
    intro fa
    rw [List.foldl_cons, ih]
    unfold stepFA
    split
    · exact List.length_set fa p.1 _
    · rfl

theorem stepFA_pair (fa : List (Option Nat)) (i loc : Nat) :
    stepFA fa (i, loc) = if fa.getD i (some 0) = none then fa.set i (some loc) else fa :=
  rfl

theorem foldl_stepFA_range (m : Nat) (fa : List (Option Nat)) (hm : m ≤ fa.length) :
    (∀ j, j < m →
      (((List.range m).map (fun i => (i, i))).foldl stepFA fa).getD j none =
        some ((fa.getD j none).getD j)) ∧
    (∀ j, m ≤ j →
      (((List.range m).map (fun i => (i, i))).foldl stepFA fa).getD j none =
        fa.getD j none) := by
  induction m with
  | zero => exact ⟨fun j hj => absurd hj (by omega), fun j _ => rfl⟩
  | succ m ih =>
    obtain ⟨ih1, ih2⟩ := ih (by omega)
    have hlenA : (((List.range m).map (fun i => (i, i))).foldl stepFA fa).length =
        fa.length := length_foldl_stepFA _ fa
    rw [List.range_succ, List.map_append, List.foldl_append]
    simp only [List.map_cons, List.map_nil, List.foldl_cons, List.foldl_nil]
    rw [stepFA_pair]
    constructor
    · intro j hj
      rcases Nat.lt_or_ge j m with hjm | hjm
      · split
        · rw [list_getD_set_ne _ _ _ _ _ (by omega)]
          exact ih1 j hjm
        · exact ih1 j hjm
      · have hjm' : j = m := by omega
        subst hjm'
        have hAj := ih2 j (by omega)
        have hAj' : (((List.range j).map (fun i => (i, i))).foldl stepFA fa).getD j
            (some 0) =
            (((List.range j).map (fun i => (i, i))).foldl stepFA fa).getD j none :=
          list_getD_congr _ _ _ j (by omega)
        split
        case isTrue hc =>
          rw [list_getD_set_eq _ _ _ _ (by omega)]
          have hfa : fa.getD j none = none := by rw [← hAj, ← hAj']; exact hc
          rw [hfa]
          rfl
        case isFalse hc =>
          cases ho : fa.getD j none with
          | none => exact absurd (hAj'.trans (hAj.trans ho)) hc
          | some v => rw [hAj, ho]; rfl
    · intro j hj
      split
      · rw [list_getD_set_ne _ _ _ _ _ (by omega)]
        exact ih2 j (by omega)
      · exact ih2 j (by omega)

theorem defaultingPass_father_getD (ds : DataSet) (m : Nat)
    (hl : ds.local_idx = List.range m) (hm : m ≤ ds.father_idx.length)
    (j : Nat) (hj : j < m) :
    (defaultingPass ds).father_idx.getD j none =
      some ((ds.father_idx.getD j none).getD j) := by
  unfold defaultingPass
  rw [foldl_defaultingStep_father, hl, enum_range]
  exact (foldl_stepFA_range m ds.father_idx hm).1 j hj

theorem defaultingPass_initial_getD (ds : DataSet) (m : Nat)
    (hl : ds.local_idx = List.range m) (hm : m ≤ ds.initial_idx.length)
    (j : Nat) (hj : j < m) :
    (defaultingPass ds).initial_idx.getD j none =
      some ((ds.initial_idx.getD j none).getD j) := by
  unfold defaultingPass
  rw [foldl_defaultingStep_initial, hl, enum_range]
  exact (foldl_stepFA_range m ds.initial_idx hm).1 j hj

theorem defaultingPass_groups_eq (ds : DataSet) (m : Nat)
    (hl : ds.local_idx = List.range m) :
    (defaultingPass ds).groups_idx = (List.range m).foldl stepG ds.groups_idx := by
  unfold defaultingPass
  rw [foldl_defaultingStep_groups, hl, enum_range, List.foldl_map]

/-! ## The group defaulting fold refines the specification rule -/

theorem stepG_apply (gs : List (Option Int)) (i : Nat) :
    stepG gs i =
      if gs.getD i (some 0) = none then
        (if gs.all (fun g => g = none) then gs.set i (some 0)
         else gs.set i (some (maxSetGroup gs + 1)))
      else gs :=
  rfl

theorem specGroupGo_cons_some (pre rest : List (Option Int)) (v : Int) :
    specGroupGo pre (some v :: rest) = specGroupGo (pre ++ [some v]) rest :=
  rfl

theorem specGroupGo_cons_none (pre rest : List (Option Int)) :
    specGroupGo pre (none :: rest) =
      if ((pre.all fun x => decide (x = none)) = true) ∧
          ((rest.all fun x => decide (x = none)) = true) then
        specGroupGo (pre ++ [some 0]) rest
      else
        specGroupGo (pre ++ [some (maxSetGroup (pre ++ none :: rest) + 1)]) rest :=
  rfl

theorem foldl_stepG_spec (suf : List (Option Int)) :
    ∀ pre : List (Option Int), (∀ x ∈ pre, x ≠ none) →
      (List.range' pre.length suf.length).foldl stepG (pre ++ suf) =
        specGroupGo pre suf := by
  induction suf with
  | nil =>
    intro pre hp
    simp [specGroupGo]
  | cons g rest ih =>
    intro pre hp
    rw [List.length_cons, List.range'_succ, List.foldl_cons]
    have hget : (pre ++ g :: rest).getD pre.length (some 0) = g :=
      list_getD_append_len pre rest g (some 0)
    cases g with
    | some v =>
      rw [stepG_apply, hget, if_neg (by simp)]
      have hp' : ∀ x ∈ pre ++ [some v], x ≠ none := by
        intro x hx
        rcases List.mem_append.mp hx with hx | hx
        · exact hp x hx
        · simp at hx; subst hx; simp
      have h2 := ih (pre ++ [some v]) hp'
      simp only [List.length_append, List.length_cons, List.length_nil, Nat.zero_add,
        List.append_assoc, List.singleton_append] at h2
      rw [specGroupGo_cons_some]
      simpa using h2
    | none =>
      rw [stepG_apply, if_pos hget, specGroupGo_cons_none]
      by_cases hall : ((pre ++ none :: rest).all fun g => decide (g = none)) = true
      · have hallp : (pre.all fun x => decide (x = none)) = true ∧
            (rest.all fun x => decide (x = none)) = true := by
          simp only [List.all_append, List.all_cons, Bool.and_eq_true] at hall
          exact ⟨hall.1, hall.2.2⟩
        rw [if_pos hall, if_pos hallp, list_set_append_len]
        have hp' : ∀ x ∈ pre ++ [some (0 : Int)], x ≠ none := by
          intro x hx
          rcases List.mem_append.mp hx with hx | hx
          · exact hp x hx
          · simp at hx; subst hx; simp
        have h2 := ih (pre ++ [some 0]) hp'
        simp only [List.length_append, List.length_cons, List.length_nil, Nat.zero_add,
          List.append_assoc, List.singleton_append] at h2
        simpa using h2
      · have hnall : ¬ ((pre.all fun x => decide (x = none)) = true ∧
            (rest.all fun x => decide (x = none)) = true) := by
          intro hc
          apply hall
          simp only [List.all_append, List.all_cons, Bool.and_eq_true]
          exact ⟨hc.1, by simp, hc.2⟩
        rw [if_neg hall, if_neg hnall, list_set_append_len]
        have hp' : ∀ x ∈ pre ++ [some (maxSetGroup (pre ++ none :: rest) + 1)],
            x ≠ none := by
          intro x hx
          rcases List.mem_append.mp hx with hx | hx
          · exact hp x hx
          · simp at hx; subst hx; simp
        have h2 := ih (pre ++ [some (maxSetGroup (pre ++ none :: rest) + 1)]) hp'
        simp only [List.length_append, List.length_cons, List.length_nil, Nat.zero_add,
          List.append_assoc, List.singleton_append] at h2
        simpa using h2

theorem foldl_stepG_range_eq_spec (gs : List (Option Int)) :
    (List.range gs.length).foldl stepG gs = specGroupDefaults gs := by
  have h := foldl_stepG_spec gs [] (by intro x hx; cases hx)
  simpa [List.range_eq_range', specGroupDefaults] using h

/-- C10: the defaulting performed by extend's post-concatenation
re-derivation: every unset `father_idx` or `initial_idx` entry becomes the
column's own local index, and the group ids evolve by the specification's
left-to-right rule (an unset id becomes 0 when every id of the current list
is unset, else one past the current maximum set id - evaluated sequentially,
so several unset ids get distinct defaults). -/
theorem C10_extend_defaults (a b r : DataSet) (h : a.expandata b = Except.ok r) :
    (∀ j, j < (a.father_idx ++ b.father_idx).length →
        r.father_idx.getD j none =
          some (((a.father_idx ++ b.father_idx).getD j none).getD j)) ∧
    (∀ j, j < (a.initial_idx ++ b.initial_idx).length →
        r.initial_idx.getD j none =
          some (((a.initial_idx ++ b.initial_idx).getD j none).getD j)) ∧
    r.groups_idx = specGroupDefaults (a.groups_idx ++ b.groups_idx) := by
  obtain ⟨d, hup⟩ := expandata_ok h
  obtain ⟨hdims, _, hr⟩ := update_attributes_ok hup
  simp only [] at hdims hr
  subst hr
  have hfa : d.length = (a.father_idx ++ b.father_idx).length := by
    obtain ⟨h1, h2, h3, h4, _⟩ := hdims
    omega
  have hini : d.length = (a.initial_idx ++ b.initial_idx).length := by
    obtain ⟨h1, h2, h3, h4, h5⟩ := hdims
    omega
  have hgs : d.length = (a.groups_idx ++ b.groups_idx).length := by
    obtain ⟨h1, h2, h3, _, _⟩ := hdims
    omega
  refine ⟨?_, ?_, ?_⟩
  · intro j hj
    exact defaultingPass_father_getD _ d.length rfl (by dsimp only; omega) j (by omega)
  · intro j hj
    exact defaultingPass_initial_getD _ d.length rfl (by dsimp only; omega) j (by omega)
  · rw [defaultingPass_groups_eq _ d.length rfl]
    rw [show (a.groups_idx ++ b.groups_idx) =
        ({ a with
            data := d,
            names := a.names ++ b.names,
            units := a.units ++ b.units,
            groups_idx := a.groups_idx ++ b.groups_idx,
            father_idx := a.father_idx ++ b.father_idx,
            initial_idx := a.initial_idx ++ b.initial_idx : DataSet}).groups_idx from rfl]
    rw [show d.length =
        ({ a with
            data := d,
            names := a.names ++ b.names,
            units := a.units ++ b.units,
            groups_idx := a.groups_idx ++ b.groups_idx,
            father_idx := a.father_idx ++ b.father_idx,
            initial_idx := a.initial_idx ++ b.initial_idx : DataSet}).groups_idx.length
      from by simp only []; omega]
    exact foldl_stepG_range_eq_spec _

/-- Witness for C10 at concrete inputs: the unset father entry of column 0
defaults to 0, the unset initial entry of column 1 defaults to 1, and the
unset group id becomes one past the maximum set id 5. -/
theorem C10_witness :
    DataSet.empty.expandata C10b = Except.ok C10r ∧
    C10r.father_idx.getD 0 none =
      some (((DataSet.empty.father_idx ++ C10b.father_idx).getD 0 none).getD 0) ∧
    C10r.initial_idx.getD 1 none =
      some (((DataSet.empty.initial_idx ++ C10b.initial_idx).getD 1 none).getD 1) ∧
    C10r.groups_idx = specGroupDefaults (DataSet.empty.groups_idx ++ C10b.groups_idx) ∧
    C10r.father_idx = [some 0, some 7] ∧ C10r.initial_idx = [some 4, some 1] ∧
    C10r.groups_idx = [some 6, some 5] :=
  ⟨by decide,
   (C10_extend_defaults DataSet.empty C10b C10r (by decide)).1 0 (by decide),
   (C10_extend_defaults DataSet.empty C10b C10r (by decide)).2.1 1 (by decide),
   (C10_extend_defaults DataSet.empty C10b C10r (by decide)).2.2,
   by decide, by decide, by decide⟩

/-- `select` on a fresh (non-inheriting) layer, with defaults unfolded. -/
theorem select_fresh (D : DataSet) (args : List Term) (ext : Bool) :
    DataProcessLayer.select (mkLayer D) args none ext false =
      (match selectTerms D ext args DataSet.empty DataSet.empty with
       | Except.error e => Except.error e
       | Except.ok acc =>
         if ({ acc with generation := acc.generation + 1 }).status = "written" then
           Except.ok { mkLayer D with
             Selected_data := { acc with generation := acc.generation + 1 },
             called_select := true }
         else Except.error "SelectionIncomplete") :=
  rfl

theorem selectTerms_unmatched_replace (D : DataSet) :
    ∀ ts : List Term, (∀ t ∈ ts, ∃ s, t = Term.str s ∧ unmatchedIn s D) →
      ∀ acc : DataSet, ts ≠ [] →
        selectTerms D false ts DataSet.empty acc = Except.ok DataSet.empty := by
  intro ts
  induction ts with
  | nil => intro _ _ h; exact absurd rfl h
  | cons t rest ih =>
    intro hall acc _
    obtain ⟨s, ht, hs⟩ := hall t (List.mem_cons_self t rest)
    subst ht
    obtain ⟨h1, h2, h3, h4⟩ := hs
    unfold selectTerms
    rw [if_neg h1, if_neg (by rw [h2]; simp), if_neg h3, if_neg h4]
    cases rest with
    | nil => rfl
    | cons t2 r2 =>
      exact ih (fun q hq => hall q (List.mem_cons_of_mem _ hq)) DataSet.empty (by simp)

/-- C4, amended: in replacement mode (merge=False) a `select` whose terms
all match nothing (including the no-terms case) fails with the
SelectionIncomplete fault; in the default merge mode such a call instead
validates the empty accumulation and returns a zero-column result (see the
counterexample). -/
theorem C4_amended (D : DataSet) (ts : List Term)
    (h : ∀ t ∈ ts, ∃ s, t = Term.str s ∧ unmatchedIn s D) :
    DataProcessLayer.select (mkLayer D) ts none false false =
      Except.error "SelectionIncomplete" := by
  rw [select_fresh]
  cases ts with
  | nil => rfl
  | cons t rest =>
    rw [selectTerms_unmatched_replace D (t :: rest) h DataSet.empty (by simp)]
    rfl

/-- Witness for C4_amended at a concrete no-match term. -/
theorem C4_witness :
    DataProcessLayer.select (mkLayer D1) [Term.str "zzz"] none false false =
      Except.error "SelectionIncomplete" :=
  C4_amended D1 [Term.str "zzz"]
    (by intro t ht; simp at ht; subst ht; exact ⟨"zzz", rfl, by decide, by decide, by decide, by decide⟩)

/-- In merge mode, starting the term loop from the validated-empty
accumulator instead of the fresh one either makes no difference, or both
runs return their starting accumulator untouched (no term ever merged). -/
theorem selectTerms_WE (dfs : DataSet) (ts : List Term) :
    ∀ buf : DataSet,
      selectTerms dfs true ts buf writtenEmpty =
          selectTerms dfs true ts buf DataSet.empty ∨
      (selectTerms dfs true ts buf writtenEmpty = Except.ok writtenEmpty ∧
       selectTerms dfs true ts buf DataSet.empty = Except.ok DataSet.empty) := by
  induction ts with
  | nil => intro buf; right; exact ⟨rfl, rfl⟩
  | cons t rest ih =>
    intro buf
    cases t with
    | str s =>
      by_cases h1 : s = "all"
      · unfold selectTerms
        simp only [if_pos h1]
        exact ih (allCopy dfs)
      · by_cases h2 : isGroupStr s = true
        · unfold selectTerms
          simp only [if_neg h1, if_pos h2]
          cases rest with
          | nil => left; rfl
          | cons t2 rest2 =>
            cases t2 with
            | str s2 => left; rfl
            | int n2 => left; rfl
            | intList l2 =>
              dsimp only
              cases hgd : getdata (groupIndices dfs l2) dfs with
              | error e => left; rfl
              | ok buf2 =>
                dsimp only
                rw [show mergeStep true writtenEmpty buf2 =
                    mergeStep true DataSet.empty buf2 from rfl]
                cases hmg : mergeStep true DataSet.empty buf2 with
                | error e => left; rfl
                | ok acc2 => left; rfl
        · by_cases h3 : s ∈ dfs.names
          · unfold selectTerms
            simp only [if_neg h1, if_neg h2, if_pos h3]
            cases hgd : getdata (matchIndices dfs.names s) dfs with
            | error e => left; rfl
            | ok buf2 =>
              dsimp only
              rw [show mergeStep true writtenEmpty buf2 =
                  mergeStep true DataSet.empty buf2 from rfl]
              cases hmg : mergeStep true DataSet.empty buf2 with
              | error e => left; rfl
              | ok acc2 => left; rfl
          · by_cases h4 : s ∈ dfs.units
            · unfold selectTerms
              simp only [if_neg h1, if_neg h2, if_neg h3, if_pos h4]
              cases hgd : getdata (matchIndices dfs.units s) dfs with
              | error e => left; rfl
              | ok buf2 =>
                dsimp only
                rw [show mergeStep true writtenEmpty buf2 =
                    mergeStep true DataSet.empty buf2 from rfl]
                cases hmg : mergeStep true DataSet.empty buf2 with
                | error e => left; rfl
                | ok acc2 => left; rfl
            · unfold selectTerms
              simp only [if_neg h1, if_neg h2, if_neg h3, if_neg h4]
              rw [show mergeStep true writtenEmpty buf =
                  mergeStep true DataSet.empty buf from rfl]
              cases hmg : mergeStep true DataSet.empty buf with
              | error e => left; rfl
              | ok acc2 => left; rfl
    | int n =>
      unfold selectTerms
      cases hgd : getdata [n] dfs with
      | error e => left; rfl
      | ok buf2 =>
        dsimp only
        rw [show mergeStep true writtenEmpty buf2 =
            mergeStep true DataSet.empty buf2 from rfl]
        cases hmg : mergeStep true DataSet.empty buf2 with
        | error e => left; rfl
        | ok acc2 => left; rfl
    | intList l =>
      unfold selectTerms
      cases hgd : getdata l dfs with
      | error e => left; rfl
      | ok buf2 =>
        dsimp only
        rw [show mergeStep true writtenEmpty buf2 =
            mergeStep true DataSet.empty buf2 from rfl]
        cases hmg : mergeStep true DataSet.empty buf2 with
        | error e => left; rfl
        | ok acc2 => left; rfl

/-- C3, amended: a term matching no grammar case leaves the per-term buffer
of the previous iteration in place and re-merges it, so it only contributes
no columns when no matching term precedes it.  In replacement mode a leading
no-match term never changes the result; in the default merge mode a leading
no-match term changes nothing provided the call without it succeeds (it
additionally validates the empty accumulation, which can turn a failing
empty selection into an empty success); after a matching term it duplicates
that term's columns (see the counterexample). -/
theorem C3_amended :
    (∀ (D : DataSet) (s : String) (ts : List Term), unmatchedIn s D →
        DataProcessLayer.select (mkLayer D) (Term.str s :: ts) none false false =
          DataProcessLayer.select (mkLayer D) ts none false false) ∧
    (∀ (D : DataSet) (s : String) (ts : List Term) (l : DataProcessLayer),
        unmatchedIn s D →
        DataProcessLayer.select (mkLayer D) ts none true false = Except.ok l →
        DataProcessLayer.select (mkLayer D) (Term.str s :: ts) none true false =
          Except.ok l) := by
  constructor
  · intro D s ts hs
    obtain ⟨h1, h2, h3, h4⟩ := hs
    rw [select_fresh, select_fresh]
    have hstep : selectTerms D false (Term.str s :: ts) DataSet.empty DataSet.empty =
        selectTerms D false ts DataSet.empty DataSet.empty := by
      conv_lhs => rw [selectTerms.eq_def]
      dsimp only
      rw [if_neg h1, if_neg (by rw [h2]; simp), if_neg h3, if_neg h4]
      rfl
    rw [hstep]
  · intro D s ts l hs hok
    obtain ⟨h1, h2, h3, h4⟩ := hs
    rw [select_fresh] at hok ⊢
    have hstep : selectTerms D true (Term.str s :: ts) DataSet.empty DataSet.empty =
        selectTerms D true ts DataSet.empty writtenEmpty := by
      conv_lhs => rw [selectTerms.eq_def]
      dsimp only
      rw [if_neg h1, if_neg (by rw [h2]; simp), if_neg h3, if_neg h4]
      rw [show mergeStep true DataSet.empty DataSet.empty = Except.ok writtenEmpty from
        rfl]
    rw [hstep]
    rcases selectTerms_WE D ts DataSet.empty with heq | ⟨hW, hE⟩
    · rw [heq]; exact hok
    · rw [hE] at hok
      dsimp only at hok
      rw [if_neg (by decide)] at hok
      exact absurd hok (by simp)

/-- Witness for C3_amended at concrete inputs. -/
theorem C3_witness :
    DataProcessLayer.select (mkLayer D1) [Term.str "zzz", Term.int 0] none false false =
      DataProcessLayer.select (mkLayer D1) [Term.int 0] none false false ∧
    DataProcessLayer.select (mkLayer D1) [Term.str "zzz", Term.int 0] none true false =
      Except.ok C3l :=
  ⟨C3_amended.1 D1 "zzz" [Term.int 0] ⟨by decide, by decide, by decide, by decide⟩,
   C3_amended.2 D1 "zzz" [Term.int 0] C3l ⟨by decide, by decide, by decide, by decide⟩
     (by decide)⟩

/-! ## Inversion helpers for successful selections -/

theorem length_stepG (gs : List (Option Int)) (i : Nat) :
    (stepG gs i).length = gs.length := by
  rw [stepG_apply]
  split
  · split
    · exact List.length_set gs i _
    · exact List.length_set gs i _
  · rfl

theorem length_foldl_stepG (ps : List (Nat × Nat)) :
    ∀ gs : List (Option Int),
      (ps.foldl (fun g p => stepG g p.1) gs).length = gs.length := by
  induction ps with
  | nil => intro gs; rfl
  | cons p ps ih =>
    intro gs
    rw [List.foldl_cons, ih, length_stepG]

theorem select_ok_inv {lay : DataProcessLayer} {args : List Term}
    {dfsOpt : Option DataSet} {l' : DataProcessLayer}
    (h : DataProcessLayer.select lay args dfsOpt true false = Except.ok l') :
    ∃ acc : DataSet,
      selectTerms (dfsOpt.getD lay.dataset) true args DataSet.empty DataSet.empty =
          Except.ok acc ∧
      acc.status = "written" ∧
      l' = { lay with
        Selected_data := { acc with generation := acc.generation + 1 },
        called_select := true } := by
  replace h :
      (match selectTerms (dfsOpt.getD lay.dataset) true args DataSet.empty
          DataSet.empty with
        | Except.error e => Except.error e
        | Except.ok acc =>
          if ({ acc with generation := acc.generation + 1 }).status = "written" then
            Except.ok { lay with
              Selected_data := { acc with generation := acc.generation + 1 },
              called_select := true }
          else Except.error "SelectionIncomplete") = Except.ok l' := h
  split at h
  · exact absurd h (by simp)
  · split at h
    · cases h
      refine ⟨_, by assumption, ?_, rfl⟩
      assumption
    · exact absurd h (by simp)

theorem selectTerms_single_intList {dfs : DataSet} {idxs : List Nat} {r : DataSet}
    (h : selectTerms dfs true [Term.intList idxs] DataSet.empty DataSet.empty =
      Except.ok r) :
    ∃ buf, getdata idxs dfs = Except.ok buf ∧
      DataSet.empty.expandata buf = Except.ok r := by
  rw [selectTerms.eq_def] at h
  dsimp only at h
  cases hgd : getdata idxs dfs with
  | error e => rw [hgd] at h; exact absurd h (by simp)
  | ok buf =>
    rw [hgd] at h
    dsimp only at h
    cases hmg : mergeStep true DataSet.empty buf with
    | error e => rw [hmg] at h; exact absurd h (by simp)
    | ok acc2 =>
      rw [hmg] at h
      dsimp only at h
      rw [show selectTerms dfs true [] buf acc2 = Except.ok acc2 from rfl] at h
      cases h
      exact ⟨buf, rfl, hmg⟩

theorem selectTerms_single_int {dfs : DataSet} {n : Nat} {r : DataSet}
    (h : selectTerms dfs true [Term.int n] DataSet.empty DataSet.empty =
      Except.ok r) :
    ∃ buf, getdata [n] dfs = Except.ok buf ∧
      DataSet.empty.expandata buf = Except.ok r := by
  rw [selectTerms.eq_def] at h
  dsimp only at h
  cases hgd : getdata [n] dfs with
  | error e => rw [hgd] at h; exact absurd h (by simp)
  | ok buf =>
    rw [hgd] at h
    dsimp only at h
    cases hmg : mergeStep true DataSet.empty buf with
    | error e => rw [hmg] at h; exact absurd h (by simp)
    | ok acc2 =>
      rw [hmg] at h
      dsimp only at h
      rw [show selectTerms dfs true [] buf acc2 = Except.ok acc2 from rfl] at h
      cases h
      exact ⟨buf, rfl, hmg⟩

theorem getdata_ok_root {idxs : List Nat} {D r : DataSet}
    (h : getdata idxs D = Except.ok r)
    (hroot : D.initial_idx = [] ∨ D.initial_idx = D.local_idx.map some) :
    DataSet.update_attributes
      { DataSet.empty with
        data := idxs.map (fun i => D.data.getD i []),
        names := idxs.map (fun i => D.names.getD i ""),
        units := idxs.map (fun i => D.units.getD i ""),
        groups_idx := idxs.map (fun i => D.groups_idx.getD i none),
        father_idx := idxs.map some,
        initial_idx := idxs.map some } = Except.ok r := by
  unfold getdata at h
  split at h
  · exact absurd h (by simp)
  · split at h
    · exact absurd h (by simp)
    · rename_i ini heq
      cases heq
      split at h
      · exact h
      · exact absurd h (by simp)

theorem getdata_ok_nonroot {idxs : List Nat} {D r : DataSet}
    (h : getdata idxs D = Except.ok r)
    (hroot : ¬ (D.initial_idx = [] ∨ D.initial_idx = D.local_idx.map some)) :
    ∃ hbd : (idxs.all fun i => i < D.initial_idx.length) = true,
      DataSet.update_attributes
        { DataSet.empty with
          data := idxs.map (fun i => D.data.getD i []),
          names := idxs.map (fun i => D.names.getD i ""),
          units := idxs.map (fun i => D.units.getD i ""),
          groups_idx := idxs.map (fun i => D.groups_idx.getD i none),
          father_idx := idxs.map some,
          initial_idx := idxs.map (fun i => D.initial_idx.getD i none) } =
        Except.ok r := by
  unfold getdata at h
  split at h
  · exact absurd h (by simp)
  · split at h
    · exact absurd h (by simp)
    · rename_i ini heq
      split at heq
      case isTrue hbd =>
        cases heq
        split at h
        · exact ⟨hbd, h⟩
        · exact absurd h (by simp)
      case isFalse hbd => exact absurd heq (by simp)

theorem wrap_ok_fields {X r : DataSet} (h : X.update_attributes = Except.ok r)
    (hsome : ∀ x ∈ X.initial_idx, x ≠ none) :
    r.initial_idx = X.initial_idx ∧ r.local_idx = List.range X.data.length ∧
    r.status = "written" ∧ r.data = X.data ∧ r.names = X.names ∧
    r.units = X.units ∧ r.groups_idx.length = X.groups_idx.length := by
  obtain ⟨hdims, _, hr⟩ := update_attributes_ok h
  subst hr
  refine ⟨?_, ?_, ?_, ?_, ?_, ?_, ?_⟩
  · exact defaultingPass_initial_of_forall_some _ (by simpa using hsome)
  · exact foldl_defaultingStep_local _ _
  · exact foldl_defaultingStep_status _ _
  · exact foldl_defaultingStep_data _ _
  · exact foldl_defaultingStep_names _ _
  · exact foldl_defaultingStep_units _ _
  · rw [show ∀ Y : DataSet, (defaultingPass Y).groups_idx =
        Y.local_idx.enum.foldl (fun g p => stepG g p.1) Y.groups_idx from
      fun Y => foldl_defaultingStep_groups _ _]
    exact length_foldl_stepG _ _

theorem expandata_empty_inv {b r : DataSet}
    (h : DataSet.empty.expandata b = Except.ok r) :
    DataSet.update_attributes
      { DataSet.empty with
        data := b.data, names := b.names, units := b.units,
        groups_idx := b.groups_idx, father_idx := b.father_idx,
        initial_idx := b.initial_idx } = Except.ok r :=
  h

/-- C5: lineage propagates transitively through chained selections: from a
root dataset (identity `initial_idx`) with at least 6 columns, selecting
columns [2, 5] and then column [0] of the result yields `initial_idx`
equal to [2] - the original root position - not [0]. -/
theorem C5_lineage (D : DataSet) (l1 l2 : DataProcessLayer)
    (hroot : D.initial_idx = D.local_idx.map some)
    (hcols : 6 ≤ D.data.length)
    (h1 : DataProcessLayer.select (mkLayer D) [Term.intList [2, 5]] none true false =
      Except.ok l1)
    (h2 : DataProcessLayer.byCall l1 [Term.int 0] true false = Except.ok l2) :
    l2.Selected_data.initial_idx = [some 2] := by
  obtain ⟨acc1, hsel1, hst1, hl1⟩ := select_ok_inv h1
  replace hsel1 : selectTerms D true [Term.intList [2, 5]] DataSet.empty DataSet.empty =
      Except.ok acc1 := hsel1
  obtain ⟨buf1, hgd1, hex1⟩ := selectTerms_single_intList hsel1
  have hb1 := wrap_ok_fields (getdata_ok_root hgd1 (Or.inr hroot)) (by simp)
  have hbuf1_init : buf1.initial_idx = [some 2, some 5] := by
    rw [hb1.1]
    rfl
  have hbuf1_dlen : buf1.data.length = 2 := by
    rw [hb1.2.2.2.1]
    rfl
  have ha1 := wrap_ok_fields (expandata_empty_inv hex1) (by
    dsimp only
    rw [hbuf1_init]
    simp)
  have hacc1_init : acc1.initial_idx = [some 2, some 5] := by
    rw [ha1.1]
    dsimp only
    exact hbuf1_init
  have hacc1_local : acc1.local_idx = [0, 1] := by
    rw [ha1.2.1]
    dsimp only
    rw [hbuf1_dlen]
    rfl
  subst hl1
  replace h2 : DataProcessLayer.select
      { dataset := (mkLayer D).dataset,
        Selected_data := { acc1 with generation := acc1.generation + 1 },
        called_select := false }
      [Term.int 0] (some ({ acc1 with generation := acc1.generation + 1 } : DataSet))
      true false = Except.ok l2 := h2
  obtain ⟨acc2, hsel2, hst2, hl2⟩ := select_ok_inv h2
  replace hsel2 : selectTerms ({ acc1 with generation := acc1.generation + 1 } : DataSet)
      true [Term.int 0] DataSet.empty DataSet.empty = Except.ok acc2 := hsel2
  obtain ⟨buf2, hgd2, hex2⟩ := selectTerms_single_int hsel2
  have hS_init : ({ acc1 with generation := acc1.generation + 1 } : DataSet).initial_idx =
      [some 2, some 5] := hacc1_init
  have hS_local : ({ acc1 with generation := acc1.generation + 1 } : DataSet).local_idx =
      [0, 1] := hacc1_local
  have hnroot : ¬ (({ acc1 with generation := acc1.generation + 1 } : DataSet).initial_idx = [] ∨
      ({ acc1 with generation := acc1.generation + 1 } : DataSet).initial_idx =
        ({ acc1 with generation := acc1.generation + 1 } : DataSet).local_idx.map some) := by
    intro hc
    rcases hc with hc | hc
    · rw [hS_init] at hc
      cases hc
    · rw [hS_init, hS_local] at hc
      simp at hc
  obtain ⟨hbd2, hup2⟩ := getdata_ok_nonroot hgd2 hnroot
  have hX3init : ([0].map (fun i =>
      ({ acc1 with generation := acc1.generation + 1 } : DataSet).initial_idx.getD i none)) =
      [some 2] := by
    rw [show [0].map (fun i =>
        ({ acc1 with generation := acc1.generation + 1 } : DataSet).initial_idx.getD i none) =
      [({ acc1 with generation := acc1.generation + 1 } : DataSet).initial_idx.getD 0 none]
      from rfl]
    rw [hS_init]
    rfl
  have hb2 := wrap_ok_fields hup2 (by
    dsimp only
    rw [hX3init]
    simp)
  have hbuf2_init : buf2.initial_idx = [some 2] := by
    rw [hb2.1]
    dsimp only
    exact hX3init
  have ha2 := wrap_ok_fields (expandata_empty_inv hex2) (by
    dsimp only
    rw [hbuf2_init]
    simp)
  have hacc2_init : acc2.initial_idx = [some 2] := by
    rw [ha2.1]
    dsimp only
    exact hbuf2_init
  rw [hl2]
  dsimp only
  exact hacc2_init

/-- Witness for C5 at concrete inputs: `D6` is a six-column root dataset and
the chain `select([2, 5]).by(0)` produces `initial_idx = [2]`. -/
theorem C5_witness : C5l2.Selected_data.initial_idx = [some 2] :=
  C5_lineage D6 C5l1 C5l2 (by decide) (by decide) (by decide) (by decide)
